import Mathlib

/-!
Shallow embedding of the chat-relay server (`src/server.js`).

State model:
* `messageCount` — the process-global post-increment id counter (`let messageCount = 0`).
* `messagesHistory` — the ordered message log (`let messagesHistory = []`).
* `onlineUsers` — the session registry, a JS object mapping display name to
  socket id (`let onlineUsers = {}`); modelled as an association list with
  unique keys (JS object key semantics for lookup/assignment/delete).
* each connection carries `socketId` and the connection-local mutable
  `currentUsername` variable (`let currentUsername = null`), modelled as
  `Option String` (with JS string truthiness made explicit where the source
  tests it).

Each socket event handler becomes a pure function from the server state, the
connection state and the event payload to the new state together with the list
of outbound events it emits (`io.emit` broadcasts, `socket.emit` unicasts,
`socket.broadcast.emit` all-but-sender relays).  Wall-clock timestamps and the
random part of upload file names are nondeterministic inputs, passed as
parameters.  The asynchronous `fs.writeFile` in the image-upload handler is
modelled in two phases: `imageUploadStart` (everything before the write is
issued) yields an optional `PendingWrite`, and `imageUploadComplete` is the
write callback, taking the error flag of the write.
-/

/-- Message record pushed onto `messagesHistory` by the chat-message and
image-upload handlers.  Image messages have no reply fields (JS `undefined`),
modelled as `none`. -/
structure Message where
  id : Nat
  user : String
  text : String
  replyToId : Option Nat
  replyToText : Option String
  timestamp : String
  seen : Bool
deriving Repr, DecidableEq

/-- Whole-server mutable state of `server.js`. -/
structure ServerState where
  messageCount : Nat
  messagesHistory : List Message
  onlineUsers : List (String × String)
deriving Repr, DecidableEq

/-- Connection-scoped state: the socket id and the handler-closure variable
`currentUsername` (JS `null` is `none`). -/
structure Conn where
  socketId : String
  currentUsername : Option String
deriving Repr, DecidableEq

/-- Outbound channel events the handlers emit. -/
inductive OutEvent where
  | loadHistory (toSocket : String) (msgs : List Message)
  | chatMessage (m : Message)
  | deleteMessage (id : Nat)
  | editMessageConfirmed (id : Nat) (newText : String)
  | messageSeen (id : Nat)
  | userDisconnected (name : String)
  | typingEvt (name : String)
  | stopTypingEvt (name : String)
deriving Repr, DecidableEq

/-- State at process start: counter 0, empty history, empty registry. -/
def initialState : ServerState :=
  { messageCount := 0, messagesHistory := [], onlineUsers := [] }

/-- JS `delete onlineUsers[k]`: drop the entry with key `k`, if any. -/
def eraseKey (reg : List (String × String)) (k : String) : List (String × String) :=
  reg.filter (fun e => e.1 ≠ k)

/-- JS `onlineUsers[k] = v`: bind key `k` to `v` (keys stay unique). -/
def setKey (reg : List (String × String)) (k v : String) : List (String × String) :=
  eraseKey reg k ++ [(k, v)]

/-- Handler for `set username` (server.js lines 32–44).  The JS guard
`if (username && username !== currentUsername)` tests string truthiness, so an
empty-string username is dropped; `if (currentUsername)` likewise. -/
def setUsername (st : ServerState) (conn : Conn) (username : String) :
    ServerState × Conn × List OutEvent :=
  if username ≠ "" ∧ some username ≠ conn.currentUsername then
    let users1 :=
      match conn.currentUsername with
      | none => st.onlineUsers
      | some old => if old = "" then st.onlineUsers else eraseKey st.onlineUsers old
    ({ st with onlineUsers := setKey users1 username conn.socketId },
     { conn with currentUsername := some username },
     [OutEvent.loadHistory conn.socketId st.messagesHistory])
  else
    (st, conn, [])

/-- Handler for `disconnect` (server.js lines 46–52): if the connection has a
(truthy) bound name, delete the registry entry under that name and broadcast
`user disconnected`. -/
def disconnect (st : ServerState) (conn : Conn) : ServerState × List OutEvent :=
  match conn.currentUsername with
  | none => (st, [])
  | some name =>
      if name = "" then (st, [])
      else ({ st with onlineUsers := eraseKey st.onlineUsers name },
            [OutEvent.userDisconnected name])

/-- Payload of a `chat message` event. -/
structure ChatPayload where
  text : String
  replyToId : Option Nat
  replyToText : Option String
deriving Repr, DecidableEq

/-- Handler for `chat message` (server.js lines 56–72): dropped unless
`currentUsername` is truthy; otherwise assigns `messageCount++` as id, appends
to the log and broadcasts the new message.  `now` is the formatted wall-clock
timestamp. -/
def chatMessage (st : ServerState) (conn : Conn) (msg : ChatPayload) (now : String) :
    ServerState × List OutEvent :=
  match conn.currentUsername with
  | none => (st, [])
  | some u =>
      if u = "" then (st, [])
      else
        let messageData : Message :=
          { id := st.messageCount, user := u, text := msg.text,
            replyToId := msg.replyToId, replyToText := msg.replyToText,
            timestamp := now, seen := false }
        ({ st with
            messageCount := st.messageCount + 1,
            messagesHistory := st.messagesHistory ++ [messageData] },
         [OutEvent.chatMessage messageData])

/-- JS `messagesHistory.find(m => m.id === Number(messageId))`: first message
whose id equals the (numeric) requested id. -/
def findMsg (st : ServerState) (messageId : Nat) : Option Message :=
  st.messagesHistory.find? (fun m => m.id == messageId)

/-- Handler for `delete message` (server.js lines 76–86): `findIndex` on the
id, then remove by `splice` only when the recorded author strictly equals
`currentUsername` (a JS `===` between a string and `string | null`). -/
def deleteMessage (st : ServerState) (conn : Conn) (messageId : Nat) :
    ServerState × List OutEvent :=
  match findMsg st messageId with
  | none => (st, [])
  | some m =>
      if conn.currentUsername = some m.user then
        ({ st with messagesHistory := st.messagesHistory.eraseP (fun m2 => m2.id == messageId) },
         [OutEvent.deleteMessage messageId])
      else
        (st, [])

/-- Mutation `message.text = data.newText` applied to the first message in the
log whose id matches (the one `find` returns). -/
def editBody (l : List Message) (messageId : Nat) (newText : String) : List Message :=
  match l with
  | [] => []
  | m :: rest =>
      if m.id == messageId then { m with text := newText } :: rest
      else m :: editBody rest messageId newText

/-- Handler for `edit message` (server.js lines 88–98): same authorization test
as delete; on success mutates the found message's `text` in place and
broadcasts `edit message confirmed`. -/
def editMessage (st : ServerState) (conn : Conn) (messageId : Nat) (newText : String) :
    ServerState × List OutEvent :=
  match findMsg st messageId with
  | none => (st, [])
  | some m =>
      if conn.currentUsername = some m.user then
        ({ st with messagesHistory := editBody st.messagesHistory messageId newText },
         [OutEvent.editMessageConfirmed messageId newText])
      else
        (st, [])

/-- Mutation `message.seen = true` applied to the first message in the log
whose id matches. -/
def setSeen (l : List Message) (messageId : Nat) : List Message :=
  match l with
  | [] => []
  | m :: rest =>
      if m.id == messageId then { m with seen := true } :: rest
      else m :: setSeen rest messageId

/-- Handler for `mark seen` (server.js lines 102–109): succeeds when the
message exists, is not yet seen, and its author differs from
`currentUsername`; then sets `seen` and broadcasts `message seen(message.id)`. -/
def markSeen (st : ServerState) (conn : Conn) (messageId : Nat) :
    ServerState × List OutEvent :=
  match findMsg st messageId with
  | none => (st, [])
  | some m =>
      if m.seen = false ∧ some m.user ≠ conn.currentUsername then
        ({ st with messagesHistory := setSeen st.messagesHistory messageId },
         [OutEvent.messageSeen m.id])
      else
        (st, [])

/-- Handler for `typing` (server.js lines 113–115): stateless relay to all but
the sender. -/
def typingHandler (st : ServerState) (username : String) : ServerState × List OutEvent :=
  (st, [OutEvent.typingEvt username])

/-- Handler for `stop typing` (server.js lines 117–119). -/
def stopTypingHandler (st : ServerState) (username : String) : ServerState × List OutEvent :=
  (st, [OutEvent.stopTypingEvt username])

/-- Payload of an `image upload` event. -/
structure UploadPayload where
  fileData : String
  fileName : String
deriving Repr, DecidableEq

/-- JS `String.prototype.split('.')` on the character list: splits at every
`'.'`, keeping empty segments, and yields `[cs]` when no dot occurs (so
`"photo.EXE"` gives `["photo", "EXE"]` and `"png"` gives `["png"]`). -/
def splitOnDot (cs : List Char) : List (List Char) :=
  match cs with
  | [] => [[]]
  | c :: rest =>
      if c = '.' then [] :: splitOnDot rest
      else
        match splitOnDot rest with
        | [] => [[c]]
        | s :: ss => (c :: s) :: ss

/-- JS `data.fileName.split('.').pop().toLowerCase()` (server.js line 127). -/
def extOf (fileName : String) : String :=
  String.mk (((splitOnDot fileName.data).getLastD []).map Char.toLower)

/-- Allow-list checked by the image-upload handler (server.js line 130). -/
def allowedExtensions : List String := ["png", "jpg", "jpeg", "gif", "webp", "avif"]

/-- Disk write issued by the upload handler, pending its callback: the unique
target file name and the decoded payload (`data.fileData.split(';base64,').pop()`). -/
structure PendingWrite where
  newFileName : String
  base64Data : String
deriving Repr, DecidableEq

/-- Synchronous prefix of the `image upload` handler (server.js lines 122–140):
dropped unless `currentUsername` is truthy; the declared file name's extension
(lower-cased) must be in the allow-list, else the request is dropped before any
write; otherwise a uniquely named write is issued.  `stamp` stands for the
nondeterministic `Date.now()_random` prefix of the new file name.  The handler
emits nothing and the server state is untouched in every branch. -/
def imageUploadStart (st : ServerState) (conn : Conn) (data : UploadPayload)
    (stamp : String) : ServerState × Option PendingWrite × List OutEvent :=
  match conn.currentUsername with
  | none => (st, none, [])
  | some u =>
      if u = "" then (st, none, [])
      else
        let extension := extOf data.fileName
        if allowedExtensions.contains extension then
          (st, some { newFileName := stamp ++ "." ++ extension,
                      base64Data := ((data.fileData.splitOn ";base64,").getLastD "") },
           [])
        else
          (st, none, [])

/-- Message object built inside the `fs.writeFile` callback (server.js lines
151–157); `u` is the value the closure variable `currentUsername` holds when
the callback runs (a truthy string on every reachable run). -/
def imageMessage (st : ServerState) (u : String) (pending : PendingWrite)
    (now : String) : Message :=
  { id := st.messageCount, user := u, text := "/uploads/" ++ pending.newFileName,
    replyToId := none, replyToText := none, timestamp := now, seen := false }

/-- Callback of `fs.writeFile` (server.js lines 140–163): on a write error it
returns with no mutation and no emission; on success it assigns the next id,
appends the image message to the log and broadcasts it. -/
def imageUploadComplete (st : ServerState) (u : String) (pending : PendingWrite)
    (now : String) (err : Bool) : ServerState × List OutEvent :=
  if err then (st, [])
  else
    let messageData := imageMessage st u pending now
    ({ st with
        messageCount := st.messageCount + 1,
        messagesHistory := st.messagesHistory ++ [messageData] },
     [OutEvent.chatMessage messageData])

/-!
Theorems for the claims, preceded by the helper lemmas they share.
-/

/-- Claim C6: a connection whose `currentUsername` was never set (still `none`)
causes no mutation of the registry or the message store, and no outbound
event, for any of chat message, delete message, edit message, and image upload
(whose pending write is also never issued); the request is silently dropped. -/
theorem C6_unbound_no_mutation (st : ServerState) (sid : String) (p : ChatPayload)
    (now : String) (messageId : Nat) (newText : String) (data : UploadPayload)
    (stamp : String) :
    chatMessage st { socketId := sid, currentUsername := none } p now = (st, [])
  ∧ deleteMessage st { socketId := sid, currentUsername := none } messageId = (st, [])
  ∧ editMessage st { socketId := sid, currentUsername := none } messageId newText = (st, [])
  ∧ imageUploadStart st { socketId := sid, currentUsername := none } data stamp = (st, none, []) := by
  refine ⟨rfl, ?_, ?_, rfl⟩
  · unfold deleteMessage
    cases h : findMsg st messageId with
    | none => rfl
    | some m => simp
  · unfold editMessage
    cases h : findMsg st messageId with
    | none => rfl
    | some m => simp

/-- Claim C7: an image upload whose declared file name's extension (last
dot-segment, lower-cased) is not in the allow-list is rejected before the disk
write is issued: the state is unchanged, no pending write exists, and nothing
is emitted to any client, regardless of the payload. -/
theorem C7_extension_allowlist (st : ServerState) (conn : Conn) (data : UploadPayload)
    (stamp : String) (h : allowedExtensions.contains (extOf data.fileName) = false) :
    imageUploadStart st conn data stamp = (st, none, []) := by
  have h2 : extOf data.fileName ∉ allowedExtensions := by simpa using h
  unfold imageUploadStart
  cases hc : conn.currentUsername with
  | none => rfl
  | some u =>
      dsimp only
      by_cases hu : u = ""
      · simp [hu]
      · simp [hu, h2]

/-- Witness for C7 at the spec's scenario input `photo.EXE`: the extension
fails the allow-list and the upload is dropped with no pending write and no
emission, even for a connection with a bound name and a well-formed payload. -/
theorem C7_witness :
    allowedExtensions.contains (extOf "photo.EXE") = false
  ∧ imageUploadStart
      { messageCount := 3, messagesHistory := [], onlineUsers := [("alice", "A")] }
      { socketId := "A", currentUsername := some "alice" }
      { fileData := "data:image/png;base64,iVBORw0KGgo", fileName := "photo.EXE" }
      "171234_ab12"
      = ({ messageCount := 3, messagesHistory := [], onlineUsers := [("alice", "A")] }, none, []) :=
  ⟨by decide, C7_extension_allowlist _ _ _ _ (by decide)⟩

/-- Claim C8: the synchronous part of the image-upload handler never mutates
the server state and never emits; the store mutation (id assignment and
append) and the broadcast happen only in the write callback, and only when the
write reports no error, so the upload's own write completion strictly precedes
its broadcast and a failed write produces no message and no broadcast. -/
theorem C8_append_only_in_callback (st : ServerState) (conn : Conn) (data : UploadPayload)
    (stamp : String) (u : String) (pending : PendingWrite) (now : String) :
    (imageUploadStart st conn data stamp).1 = st
  ∧ (imageUploadStart st conn data stamp).2.2 = []
  ∧ imageUploadComplete st u pending now true = (st, [])
  ∧ imageUploadComplete st u pending now false =
      ({ st with
          messageCount := st.messageCount + 1,
          messagesHistory := st.messagesHistory ++ [imageMessage st u pending now] },
       [OutEvent.chatMessage (imageMessage st u pending now)]) := by
  refine ⟨?_, ?_, rfl, rfl⟩ <;>
  · unfold imageUploadStart
    cases hc : conn.currentUsername with
    | none => rfl
    | some v =>
        dsimp only
        by_cases hv : v = ""
        · simp [hv]
        · simp only [if_neg hv]
          split <;> rfl

/-- Claim C1 as stated is false on the code: connection `A` binds `alice`,
connection `B` then claims `alice` (registry entry `("alice", "B")`), and when
`A` disconnects the handler deletes the registry entry *by name*
(`delete onlineUsers[currentUsername]`), removing the entry whose value is the
different connection identifier `"B"` — the entry the claim requires to be
left unchanged. -/
theorem C1_counterexample :
    let r1 := setUsername initialState { socketId := "A", currentUsername := none } "alice"
    let r2 := setUsername r1.1 { socketId := "B", currentUsername := none } "alice"
    ("alice", "B") ∈ r2.1.onlineUsers
  ∧ r1.2.1.socketId = "A"
  ∧ ("B" : String) ≠ "A"
  ∧ ("alice", "B") ∉ (disconnect r2.1 r1.2.1).1.onlineUsers := by
  decide

/-- Claim C1 (amended): on disconnect, if the connection has a (truthy) bound
name, release removes the registry entry keyed by that name — whatever
connection identifier it currently holds — leaves every entry under any other
name unchanged, leaves the message store untouched, and broadcasts the
`user disconnected` event with that name; if no name is bound, nothing
changes and nothing is emitted. -/
theorem C1_release_by_name (st : ServerState) (conn : Conn) :
    (conn.currentUsername = none → disconnect st conn = (st, []))
  ∧ (∀ name, name ≠ "" → conn.currentUsername = some name →
        (disconnect st conn).2 = [OutEvent.userDisconnected name]
      ∧ (disconnect st conn).1.messagesHistory = st.messagesHistory
      ∧ (disconnect st conn).1.messageCount = st.messageCount
      ∧ (∀ v, (name, v) ∉ (disconnect st conn).1.onlineUsers)
      ∧ (∀ e ∈ st.onlineUsers, e.1 ≠ name → e ∈ (disconnect st conn).1.onlineUsers)
      ∧ (∀ e ∈ (disconnect st conn).1.onlineUsers, e ∈ st.onlineUsers ∧ e.1 ≠ name)) := by
  constructor
  · intro h
    simp [disconnect, h]
  · intro name hn h
    have hd : disconnect st conn =
        ({ st with onlineUsers := eraseKey st.onlineUsers name },
         [OutEvent.userDisconnected name]) := by
      simp [disconnect, h, hn]
    rw [hd]
    refine ⟨rfl, rfl, rfl, ?_, ?_, ?_⟩
    · intro v hv
      simp [eraseKey, List.mem_filter] at hv
    · intro e he hne
      simp [eraseKey, List.mem_filter, he, hne]
    · intro e he
      simp [eraseKey, List.mem_filter] at he
      exact he

/-- Witness for C1 (amended): a concrete disconnect of the connection bound to
`alice` removes the `alice` entry, keeps the `bob` entry, and broadcasts the
departure of `alice`. -/
theorem C1_release_by_name_witness :
    (disconnect
        { messageCount := 0, messagesHistory := [],
          onlineUsers := [("alice", "A"), ("bob", "B")] }
        { socketId := "A", currentUsername := some "alice" }).2
      = [OutEvent.userDisconnected "alice"]
  ∧ ("bob", "B") ∈ (disconnect
        { messageCount := 0, messagesHistory := [],
          onlineUsers := [("alice", "A"), ("bob", "B")] }
        { socketId := "A", currentUsername := some "alice" }).1.onlineUsers
  ∧ ∀ v, ("alice", v) ∉ (disconnect
        { messageCount := 0, messagesHistory := [],
          onlineUsers := [("alice", "A"), ("bob", "B")] }
        { socketId := "A", currentUsername := some "alice" }).1.onlineUsers := by
  have h := (C1_release_by_name
      { messageCount := 0, messagesHistory := [],
        onlineUsers := [("alice", "A"), ("bob", "B")] }
      { socketId := "A", currentUsername := some "alice" }).2
      "alice" (by decide) rfl
  exact ⟨h.1, h.2.2.2.2.1 ("bob", "B") (by decide) (by decide), h.2.2.2.1⟩

/-- Claim C2 as stated is false on the code: the guard
`if (username && username !== currentUsername)` tests JS string truthiness, so
the empty string — which the claim says is permitted and always succeeds — is
silently dropped: here `""` differs from the bound name `alice`, yet the state
and connection are unchanged, no registry entry `""` is created, the prior
entry is not released, and nothing is emitted. -/
theorem C2_counterexample :
    let st : ServerState :=
      { messageCount := 0, messagesHistory := [], onlineUsers := [("alice", "A")] }
    let conn : Conn := { socketId := "A", currentUsername := some "alice" }
    some "" ≠ conn.currentUsername
  ∧ setUsername st conn "" = (st, conn, [])
  ∧ ("alice", "A") ∈ st.onlineUsers := by
  decide

/-- Claim C2 (amended): the set-username operation's only validation is JS
truthiness of the name: for every *non-empty* name (whitespace-only strings
included) that differs from the connection's currently bound name, the claim
always succeeds — the registry entry under the connection's prior (truthy)
bound name is removed, `registry[name]` is set to the connection's identifier
(displacing any prior owner of `name`), entries under all other names survive,
the connection's bound name becomes `name`, and the history snapshot is sent
to the sender; an empty-string name is silently ignored. -/
theorem C2_claim_truthy (st : ServerState) (conn : Conn) (username : String)
    (h1 : username ≠ "") (h2 : some username ≠ conn.currentUsername) :
    (username, conn.socketId) ∈ (setUsername st conn username).1.onlineUsers
  ∧ (∀ v, (username, v) ∈ (setUsername st conn username).1.onlineUsers → v = conn.socketId)
  ∧ (setUsername st conn username).2.1 = { conn with currentUsername := some username }
  ∧ (setUsername st conn username).2.2 = [OutEvent.loadHistory conn.socketId st.messagesHistory]
  ∧ (setUsername st conn username).1.messagesHistory = st.messagesHistory
  ∧ (setUsername st conn username).1.messageCount = st.messageCount
  ∧ (∀ old, old ≠ "" → conn.currentUsername = some old →
        ∀ v, (old, v) ∉ (setUsername st conn username).1.onlineUsers)
  ∧ (∀ e ∈ st.onlineUsers, e.1 ≠ username →
        (∀ old, conn.currentUsername = some old → e.1 ≠ old) →
        e ∈ (setUsername st conn username).1.onlineUsers) := by
  cases hcur : conn.currentUsername with
  | none =>
      have hs : setUsername st conn username =
          ({ st with onlineUsers := setKey st.onlineUsers username conn.socketId },
           { conn with currentUsername := some username },
           [OutEvent.loadHistory conn.socketId st.messagesHistory]) := by
        simp [setUsername, h1, hcur]
      rw [hs]
      refine ⟨?_, ?_, rfl, rfl, rfl, rfl, ?_, ?_⟩
      · simp [setKey]
      · intro v hv
        simp [setKey, eraseKey, List.mem_filter] at hv
        exact hv
      · intro old hold hc
        exact absurd hc (by simp)
      · intro e he hne hold
        simp [setKey, eraseKey, List.mem_filter, he, hne]
  | some old0 =>
      have hne0 : username ≠ old0 := by
        intro he
        rw [hcur, ← he] at h2
        exact h2 rfl
      have hs : setUsername st conn username =
          ({ st with onlineUsers :=
               (setKey (if old0 = "" then st.onlineUsers else eraseKey st.onlineUsers old0)
                 username conn.socketId) },
           { conn with currentUsername := some username },
           [OutEvent.loadHistory conn.socketId st.messagesHistory]) := by
        simp [setUsername, h1, hcur, hne0]
      rw [hs]
      refine ⟨?_, ?_, rfl, rfl, rfl, rfl, ?_, ?_⟩
      · simp [setKey]
      · intro v hv
        by_cases ho : old0 = "" <;>
          simp [setKey, eraseKey, List.mem_filter, ho] at hv <;> exact hv
      · intro old hold hc v hv
        have : old = old0 := (Option.some.inj hc).symm
        subst this
        rw [if_neg hold] at hv
        simp [setKey, eraseKey, List.mem_filter] at hv
        exact hne0 hv.1.symm
      · intro e he hne hold
        have hno : e.1 ≠ old0 := hold old0 rfl
        by_cases ho : old0 = "" <;>
          simp [setKey, eraseKey, List.mem_filter, he, hne, hno, ho]

/-- Witness for C2 (amended): a whitespace-only name `" "` claimed by a
connection previously bound to `alice` succeeds, installing `(" ", "A")`,
removing the `alice` entry, and replying with the history snapshot. -/
theorem C2_claim_truthy_witness :
    (" ", "A") ∈ (setUsername
        { messageCount := 0, messagesHistory := [], onlineUsers := [("alice", "A")] }
        { socketId := "A", currentUsername := some "alice" } " ").1.onlineUsers
  ∧ (∀ v, ("alice", v) ∉ (setUsername
        { messageCount := 0, messagesHistory := [], onlineUsers := [("alice", "A")] }
        { socketId := "A", currentUsername := some "alice" } " ").1.onlineUsers)
  ∧ (setUsername
        { messageCount := 0, messagesHistory := [], onlineUsers := [("alice", "A")] }
        { socketId := "A", currentUsername := some "alice" } " ").2.1
      = { socketId := "A", currentUsername := some " " } := by
  have h := C2_claim_truthy
      { messageCount := 0, messagesHistory := [], onlineUsers := [("alice", "A")] }
      { socketId := "A", currentUsername := some "alice" } " "
      (by decide) (by decide)
  exact ⟨h.1, h.2.2.2.2.2.2.1 "alice" (by decide) rfl, h.2.2.1⟩

/-- Claim C3: delete and edit succeed exactly when the requester's bound name
equals the recorded author of the found message.  When the message is absent
or the author differs, both handlers return the store unchanged and emit
nothing (the failure is only logged); when the author matches, delete removes
the (first) message with that id and broadcasts `delete message(id)`, and edit
replaces that message's body and broadcasts `edit message confirmed`. -/
theorem C3_edit_delete_author (st : ServerState) (conn : Conn) (messageId : Nat)
    (newText : String) :
    (findMsg st messageId = none →
        deleteMessage st conn messageId = (st, [])
      ∧ editMessage st conn messageId newText = (st, []))
  ∧ (∀ m, findMsg st messageId = some m → conn.currentUsername ≠ some m.user →
        deleteMessage st conn messageId = (st, [])
      ∧ editMessage st conn messageId newText = (st, []))
  ∧ (∀ m, findMsg st messageId = some m → conn.currentUsername = some m.user →
        deleteMessage st conn messageId =
          ({ st with messagesHistory := (st.messagesHistory.eraseP (fun m2 => m2.id == messageId)) },
           [OutEvent.deleteMessage messageId])
      ∧ editMessage st conn messageId newText =
          ({ st with messagesHistory := (editBody st.messagesHistory messageId newText) },
           [OutEvent.editMessageConfirmed messageId newText])) := by
  refine ⟨?_, ?_, ?_⟩
  · intro h
    constructor <;> simp [deleteMessage, editMessage, h]
  · intro m hm hne
    constructor <;> simp [deleteMessage, editMessage, hm, hne]
  · intro m hm heq
    constructor <;> simp [deleteMessage, editMessage, hm, heq]

/-- Witness for C3: in a store holding one message authored by `alice`, the
author's delete removes it with a broadcast, while `bob`'s edit of the same
message leaves the store unchanged and emits nothing. -/
theorem C3_edit_delete_author_witness :
    deleteMessage
      { messageCount := 1,
        messagesHistory := [{ id := 0, user := "alice", text := "hi", replyToId := none,
                              replyToText := none, timestamp := "10:00 AM", seen := false }],
        onlineUsers := [("alice", "A")] }
      { socketId := "A", currentUsername := some "alice" } 0
      = ({ messageCount := 1, messagesHistory := [], onlineUsers := [("alice", "A")] },
         [OutEvent.deleteMessage 0])
  ∧ editMessage
      { messageCount := 1,
        messagesHistory := [{ id := 0, user := "alice", text := "hi", replyToId := none,
                              replyToText := none, timestamp := "10:00 AM", seen := false }],
        onlineUsers := [("alice", "A")] }
      { socketId := "B", currentUsername := some "bob" } 0 "bye"
      = ({ messageCount := 1,
           messagesHistory := [{ id := 0, user := "alice", text := "hi", replyToId := none,
                                 replyToText := none, timestamp := "10:00 AM", seen := false }],
           onlineUsers := [("alice", "A")] }, []) := by
  constructor
  · have h := ((C3_edit_delete_author
        { messageCount := 1,
          messagesHistory := [{ id := 0, user := "alice", text := "hi", replyToId := none,
                                replyToText := none, timestamp := "10:00 AM", seen := false }],
          onlineUsers := [("alice", "A")] }
        { socketId := "A", currentUsername := some "alice" } 0 "bye").2.2
        { id := 0, user := "alice", text := "hi", replyToId := none,
          replyToText := none, timestamp := "10:00 AM", seen := false }
        (by decide) (by decide)).1
    rw [h]
    decide
  · exact ((C3_edit_delete_author
        { messageCount := 1,
          messagesHistory := [{ id := 0, user := "alice", text := "hi", replyToId := none,
                                replyToText := none, timestamp := "10:00 AM", seen := false }],
          onlineUsers := [("alice", "A")] }
        { socketId := "B", currentUsername := some "bob" } 0 "bye").2.1
        { id := 0, user := "alice", text := "hi", replyToId := none,
          replyToText := none, timestamp := "10:00 AM", seen := false }
        (by decide) (by decide)).2

/-- Claim C10: a connection that never set a username (bound name still the
JS `null`) can successfully mark any existing unseen message as seen: the
`mark seen` handler has no bound-name guard, and the author comparison
`message.user !== currentUsername` is always true when `currentUsername` is
null, so the seen flag is set and `message seen` is broadcast to all. -/
theorem C10_unbound_markSeen (st : ServerState) (sid : String) (messageId : Nat)
    (m : Message) (hfind : findMsg st messageId = some m) (hseen : m.seen = false) :
    markSeen st { socketId := sid, currentUsername := none } messageId =
      ({ st with messagesHistory := (setSeen st.messagesHistory messageId) },
       [OutEvent.messageSeen m.id]) := by
  simp [markSeen, hfind, hseen]

/-- Witness for C10: with no bound name, marking the unseen message `id = 0`
authored by `alice` succeeds, sets its seen flag, and broadcasts
`message seen(0)`. -/
theorem C10_unbound_markSeen_witness :
    markSeen
      { messageCount := 1,
        messagesHistory := [{ id := 0, user := "alice", text := "hi", replyToId := none,
                              replyToText := none, timestamp := "10:00 AM", seen := false }],
        onlineUsers := [("alice", "A")] }
      { socketId := "C", currentUsername := none } 0
      = ({ messageCount := 1,
           messagesHistory := [{ id := 0, user := "alice", text := "hi", replyToId := none,
                                 replyToText := none, timestamp := "10:00 AM", seen := true }],
           onlineUsers := [("alice", "A")] },
         [OutEvent.messageSeen 0]) := by
  have h := C10_unbound_markSeen
      { messageCount := 1,
        messagesHistory := [{ id := 0, user := "alice", text := "hi", replyToId := none,
                              replyToText := none, timestamp := "10:00 AM", seen := false }],
        onlineUsers := [("alice", "A")] }
      "C" 0
      { id := 0, user := "alice", text := "hi", replyToId := none,
        replyToText := none, timestamp := "10:00 AM", seen := false }
      (by decide) rfl
  rw [h]
  decide

/-- Auxiliary: `setSeen` flips exactly the message that `find` locates, so a
second lookup of the same id finds that message with `seen := true`. -/
theorem find_setSeen (l : List Message) (mid : Nat) (m : Message)
    (h : l.find? (fun x => x.id == mid) = some m) :
    (setSeen l mid).find? (fun x => x.id == mid) = some { m with seen := true } := by
  induction l with
  | nil => simp at h
  | cons a rest ih =>
      unfold setSeen
      by_cases ha : (a.id == mid)
      · rw [if_pos ha]
        rw [@List.find?_cons_of_pos Message (fun x => x.id == mid) a rest ha] at h
        have hm : a = m := Option.some.inj h
        subst hm
        exact @List.find?_cons_of_pos Message (fun x => x.id == mid) _ rest ha
      · rw [if_neg ha]
        rw [@List.find?_cons_of_neg Message (fun x => x.id == mid) a rest ha] at h
        rw [@List.find?_cons_of_neg Message (fun x => x.id == mid) a (setSeen rest mid) ha]
        exact ih h

/-- Claim C5: `mark seen` succeeds exactly when the message exists, its seen
flag is still false, and the reader's bound name differs from the recorded
author; then the flag is set and `message seen(id)` is broadcast.  On an
absent id, on an already-seen message, or when the reader is the author, the
store is unchanged and nothing is emitted; in particular any repeated call
after the first success (by any connection `conn2`) is such a silent no-op. -/
theorem C5_markSeen_iff (st : ServerState) (conn conn2 : Conn) (messageId : Nat) :
    (findMsg st messageId = none → markSeen st conn messageId = (st, []))
  ∧ (∀ m, findMsg st messageId = some m → m.seen = true →
        markSeen st conn messageId = (st, []))
  ∧ (∀ m, findMsg st messageId = some m → some m.user = conn.currentUsername →
        markSeen st conn messageId = (st, []))
  ∧ (∀ m, findMsg st messageId = some m → m.seen = false →
        some m.user ≠ conn.currentUsername →
        markSeen st conn messageId =
          ({ st with messagesHistory := (setSeen st.messagesHistory messageId) },
           [OutEvent.messageSeen m.id])
      ∧ markSeen { st with messagesHistory := (setSeen st.messagesHistory messageId) }
          conn2 messageId
          = ({ st with messagesHistory := (setSeen st.messagesHistory messageId) }, [])) := by
  refine ⟨?_, ?_, ?_, ?_⟩
  · intro h
    simp [markSeen, h]
  · intro m hm hseen
    simp [markSeen, hm, hseen]
  · intro m hm hauth
    simp [markSeen, hm, ← hauth]
  · intro m hm hseen hne
    constructor
    · simp [markSeen, hm, hseen, hne]
    · have h2 : findMsg { st with messagesHistory := (setSeen st.messagesHistory messageId) }
          messageId = some { m with seen := true } :=
        find_setSeen st.messagesHistory messageId m hm
      simp [markSeen, h2]

/-- Witness for C5: in a one-message store, `bob` marks `alice`'s unseen
message seen (flag set, broadcast emitted), and an immediate repeat by the
same connection is a silent no-op; `alice` herself could not have marked it. -/
theorem C5_markSeen_iff_witness :
    markSeen
      { messageCount := 1,
        messagesHistory := [{ id := 0, user := "alice", text := "hi", replyToId := none,
                              replyToText := none, timestamp := "10:00 AM", seen := false }],
        onlineUsers := [] }
      { socketId := "B", currentUsername := some "bob" } 0
      = ({ messageCount := 1,
           messagesHistory := [{ id := 0, user := "alice", text := "hi", replyToId := none,
                                 replyToText := none, timestamp := "10:00 AM", seen := true }],
           onlineUsers := [] },
         [OutEvent.messageSeen 0])
  ∧ markSeen
      { messageCount := 1,
        messagesHistory := [{ id := 0, user := "alice", text := "hi", replyToId := none,
                              replyToText := none, timestamp := "10:00 AM", seen := true }],
        onlineUsers := [] }
      { socketId := "B", currentUsername := some "bob" } 0
      = ({ messageCount := 1,
           messagesHistory := [{ id := 0, user := "alice", text := "hi", replyToId := none,
                                 replyToText := none, timestamp := "10:00 AM", seen := true }],
           onlineUsers := [] }, []) := by
  have h := (C5_markSeen_iff
      { messageCount := 1,
        messagesHistory := [{ id := 0, user := "alice", text := "hi", replyToId := none,
                              replyToText := none, timestamp := "10:00 AM", seen := false }],
        onlineUsers := [] }
      { socketId := "B", currentUsername := some "bob" }
      { socketId := "B", currentUsername := some "bob" } 0).2.2.2
      { id := 0, user := "alice", text := "hi", replyToId := none,
        replyToText := none, timestamp := "10:00 AM", seen := false }
      (by decide) rfl (by decide)
  constructor
  · rw [h.1]
    decide
  · have h2 := h.2
    rw [show (setSeen
        [{ id := 0, user := "alice", text := "hi", replyToId := none,
           replyToText := none, timestamp := "10:00 AM", seen := false }] 0)
        = [{ id := 0, user := "alice", text := "hi", replyToId := none,
             replyToText := none, timestamp := "10:00 AM", seen := true }] from by decide] at h2
    exact h2

/-- Auxiliary: `editBody` preserves the length of the log. -/
theorem editBody_length (l : List Message) (mid : Nat) (t : String) :
    (editBody l mid t).length = l.length := by
  induction l with
  | nil => rfl
  | cons a rest ih =>
      unfold editBody
      by_cases ha : (a.id == mid) <;> simp [ha, ih]

/-- Auxiliary: position by position, `editBody` either leaves the entry alone
or replaces exactly the body of an entry whose id is the edited one. -/
theorem editBody_getElem (l : List Message) (mid : Nat) (t : String) (i : Nat) :
    (editBody l mid t)[i]? = l[i]?
  ∨ (∃ m, l[i]? = some m ∧ (editBody l mid t)[i]? = some { m with text := t }
        ∧ m.id = mid) := by
  induction l generalizing i with
  | nil => left; rfl
  | cons a rest ih =>
      unfold editBody
      by_cases ha : (a.id == mid)
      · rw [if_pos ha]
        cases i with
        | zero => right; exact ⟨a, by simp, by simp, by simpa using ha⟩
        | succ n => left; simp
      · rw [if_neg ha]
        cases i with
        | zero => left; simp
        | succ n =>
            simp only [List.getElem?_cons_succ]
            exact ih n

/-- Claim C9: a successful edit changes only the body of the edited message:
the counter, the registry, the log length are unchanged; at every position the
log either holds exactly the old message or — only where the old message bears
the edited id — the old message with just its `text` replaced; consequently
id, author, timestamp, reply fields, and seen flag of every message are
exactly as before. -/
theorem C9_edit_frame (st : ServerState) (conn : Conn) (messageId : Nat) (newText : String)
    (m : Message) (hfind : findMsg st messageId = some m)
    (hauth : conn.currentUsername = some m.user) :
    (editMessage st conn messageId newText).1.messageCount = st.messageCount
  ∧ (editMessage st conn messageId newText).1.onlineUsers = st.onlineUsers
  ∧ (editMessage st conn messageId newText).1.messagesHistory.length
      = st.messagesHistory.length
  ∧ (∀ i : Nat,
      (editMessage st conn messageId newText).1.messagesHistory[i]?
          = st.messagesHistory[i]?
      ∨ ∃ old, st.messagesHistory[i]? = some old
          ∧ (editMessage st conn messageId newText).1.messagesHistory[i]?
              = some { old with text := newText }
          ∧ old.id = messageId)
  ∧ (∀ i : Nat, ∀ old new2,
      st.messagesHistory[i]? = some old →
      (editMessage st conn messageId newText).1.messagesHistory[i]? = some new2 →
      new2.id = old.id ∧ new2.user = old.user ∧ new2.timestamp = old.timestamp
        ∧ new2.replyToId = old.replyToId ∧ new2.replyToText = old.replyToText
        ∧ new2.seen = old.seen) := by
  have hs : editMessage st conn messageId newText =
      ({ st with messagesHistory := (editBody st.messagesHistory messageId newText) },
       [OutEvent.editMessageConfirmed messageId newText]) := by
    simp [editMessage, hfind, hauth]
  rw [hs]
  refine ⟨rfl, rfl, editBody_length _ _ _, ?_, ?_⟩
  · intro i
    exact editBody_getElem st.messagesHistory messageId newText i
  · intro i old new2 hold hnew
    rcases editBody_getElem st.messagesHistory messageId newText i with h | ⟨m2, hm2, hm3, _⟩
    · rw [hold] at h
      rw [h] at hnew
      have : old = new2 := Option.some.inj hnew
      subst this
      exact ⟨rfl, rfl, rfl, rfl, rfl, rfl⟩
    · rw [hold] at hm2
      have hm2e : m2 = old := (Option.some.inj hm2).symm
      subst hm2e
      rw [hm3] at hnew
      have : { m2 with text := newText } = new2 := Option.some.inj hnew
      subst this
      exact ⟨rfl, rfl, rfl, rfl, rfl, rfl⟩

/-- Witness for C9: editing the first of two messages leaves its id, author,
timestamp, reply snapshot, and seen flag intact, changes only its text, and
leaves the second message untouched. -/
theorem C9_edit_frame_witness :
    ((editMessage
        { messageCount := 2,
          messagesHistory :=
            [{ id := 0, user := "alice", text := "hi", replyToId := none,
               replyToText := none, timestamp := "10:00 AM", seen := true },
             { id := 1, user := "bob", text := "yo", replyToId := some 0,
               replyToText := some "hi", timestamp := "10:01 AM", seen := false }],
          onlineUsers := [] }
        { socketId := "A", currentUsername := some "alice" } 0 "bye").1.messagesHistory.length
      = 2)
  ∧ (∀ i : Nat, ∀ old new2,
      ([{ id := 0, user := "alice", text := "hi", replyToId := none,
          replyToText := none, timestamp := "10:00 AM", seen := true },
        { id := 1, user := "bob", text := "yo", replyToId := some 0,
          replyToText := some "hi", timestamp := "10:01 AM", seen := false }] :
            List Message)[i]? = some old →
      (editMessage
        { messageCount := 2,
          messagesHistory :=
            [{ id := 0, user := "alice", text := "hi", replyToId := none,
               replyToText := none, timestamp := "10:00 AM", seen := true },
             { id := 1, user := "bob", text := "yo", replyToId := some 0,
               replyToText := some "hi", timestamp := "10:01 AM", seen := false }],
          onlineUsers := [] }
        { socketId := "A", currentUsername := some "alice" } 0 "bye").1.messagesHistory[i]?
        = some new2 →
      new2.id = old.id ∧ new2.user = old.user ∧ new2.timestamp = old.timestamp
        ∧ new2.replyToId = old.replyToId ∧ new2.replyToText = old.replyToText
        ∧ new2.seen = old.seen) := by
  have h := C9_edit_frame
      { messageCount := 2,
        messagesHistory :=
          [{ id := 0, user := "alice", text := "hi", replyToId := none,
             replyToText := none, timestamp := "10:00 AM", seen := true },
           { id := 1, user := "bob", text := "yo", replyToId := some 0,
             replyToText := some "hi", timestamp := "10:01 AM", seen := false }],
        onlineUsers := [] }
      { socketId := "A", currentUsername := some "alice" } 0 "bye"
      { id := 0, user := "alice", text := "hi", replyToId := none,
        replyToText := none, timestamp := "10:00 AM", seen := true }
      (by decide) rfl
  exact ⟨by rw [h.2.2.1]; rfl, h.2.2.2.2⟩

/-- One event-handling step of the server: some handler runs on some
connection with some payload (connection state, payloads, timestamps, and the
write-error flag are quantified arbitrarily, an over-approximation of the real
traces that is sound for invariants of the server state). -/
inductive ServerStep : ServerState → ServerState → Prop where
  | stepSetUsername (st : ServerState) (conn : Conn) (username : String) :
      ServerStep st (setUsername st conn username).1
  | stepDisconnect (st : ServerState) (conn : Conn) :
      ServerStep st (disconnect st conn).1
  | stepChat (st : ServerState) (conn : Conn) (msg : ChatPayload) (now : String) :
      ServerStep st (chatMessage st conn msg now).1
  | stepDelete (st : ServerState) (conn : Conn) (messageId : Nat) :
      ServerStep st (deleteMessage st conn messageId).1
  | stepEdit (st : ServerState) (conn : Conn) (messageId : Nat) (newText : String) :
      ServerStep st (editMessage st conn messageId newText).1
  | stepMarkSeen (st : ServerState) (conn : Conn) (messageId : Nat) :
      ServerStep st (markSeen st conn messageId).1
  | stepTyping (st : ServerState) (username : String) :
      ServerStep st (typingHandler st username).1
  | stepStopTyping (st : ServerState) (username : String) :
      ServerStep st (stopTypingHandler st username).1
  | stepUploadStart (st : ServerState) (conn : Conn) (data : UploadPayload) (stamp : String) :
      ServerStep st (imageUploadStart st conn data stamp).1
  | stepUploadComplete (st : ServerState) (u : String) (pending : PendingWrite)
      (now : String) (err : Bool) :
      ServerStep st (imageUploadComplete st u pending now err).1

/-- States the server can be in after any finite sequence of events from
process start. -/
def Reachable (st : ServerState) : Prop :=
  Relation.ReflTransGen ServerStep initialState st

/-- Store invariant: the ids along the log are strictly increasing (so the
log's iteration order is creation order), and every id in the log is below
the counter. -/
def StoreInv (st : ServerState) : Prop :=
  (st.messagesHistory.map Message.id).Pairwise (· < ·)
  ∧ ∀ i ∈ st.messagesHistory.map Message.id, i < st.messageCount

/-- Auxiliary: the invariant only looks at the log and the counter. -/
theorem StoreInv_congr (st st' : ServerState)
    (h1 : st'.messagesHistory = st.messagesHistory)
    (h2 : st'.messageCount = st.messageCount) (hinv : StoreInv st) : StoreInv st' := by
  obtain ⟨hp, hb⟩ := hinv
  constructor
  · rw [h1]
    exact hp
  · rw [h1, h2]
    exact hb

/-- Auxiliary: appending a message carrying the current counter value and
bumping the counter preserves the invariant. -/
theorem StoreInv_append (st : ServerState) (hinv : StoreInv st) (m : Message)
    (hid : m.id = st.messageCount) :
    StoreInv { st with
        messageCount := st.messageCount + 1,
        messagesHistory := (st.messagesHistory ++ [m]) } := by
  obtain ⟨hp, hb⟩ := hinv
  constructor
  · show ((st.messagesHistory ++ [m]).map Message.id).Pairwise (· < ·)
    rw [List.map_append, List.pairwise_append]
    refine ⟨hp, by simp, ?_⟩
    intro a ha b hbm
    simp only [List.map_cons, List.map_nil, List.mem_singleton] at hbm
    rw [hbm, hid]
    exact hb a ha
  · show ∀ i ∈ (st.messagesHistory ++ [m]).map Message.id, i < st.messageCount + 1
    intro i hi
    rw [List.map_append] at hi
    rcases List.mem_append.1 hi with h | h
    · exact Nat.lt_succ_of_lt (hb i h)
    · simp only [List.map_cons, List.map_nil, List.mem_singleton] at h
      rw [h, hid]
      exact Nat.lt_succ_self _

/-- Auxiliary: `setUsername` does not touch the log or the counter. -/
theorem setUsername_store (st : ServerState) (conn : Conn) (username : String) :
    (setUsername st conn username).1.messagesHistory = st.messagesHistory
  ∧ (setUsername st conn username).1.messageCount = st.messageCount := by
  unfold setUsername
  split <;> exact ⟨rfl, rfl⟩

/-- Auxiliary: `disconnect` does not touch the log or the counter. -/
theorem disconnect_store (st : ServerState) (conn : Conn) :
    (disconnect st conn).1.messagesHistory = st.messagesHistory
  ∧ (disconnect st conn).1.messageCount = st.messageCount := by
  unfold disconnect
  cases conn.currentUsername with
  | none => exact ⟨rfl, rfl⟩
  | some name =>
      dsimp only
      split <;> exact ⟨rfl, rfl⟩

/-- Auxiliary: `imageUploadStart` does not change the server state at all. -/
theorem imageUploadStart_state (st : ServerState) (conn : Conn) (data : UploadPayload)
    (stamp : String) : (imageUploadStart st conn data stamp).1 = st := by
  unfold imageUploadStart
  cases conn.currentUsername with
  | none => rfl
  | some v =>
      dsimp only
      by_cases hv : v = ""
      · simp [hv]
      · simp only [if_neg hv]
        split <;> rfl

/-- Auxiliary: `setSeen` does not change the ids along the log. -/
theorem setSeen_map_id (l : List Message) (mid : Nat) :
    (setSeen l mid).map Message.id = l.map Message.id := by
  induction l with
  | nil => rfl
  | cons a rest ih =>
      unfold setSeen
      by_cases ha : (a.id == mid) <;> simp [ha, ih]

/-- Auxiliary: `editBody` does not change the ids along the log. -/
theorem editBody_map_id (l : List Message) (mid : Nat) (t : String) :
    (editBody l mid t).map Message.id = l.map Message.id := by
  induction l with
  | nil => rfl
  | cons a rest ih =>
      unfold editBody
      by_cases ha : (a.id == mid) <;> simp [ha, ih]

/-- Auxiliary: every single event step preserves the store invariant and never
decreases the id counter. -/
theorem ServerStep_preserves (st st' : ServerState) (h : ServerStep st st')
    (hinv : StoreInv st) : StoreInv st' ∧ st.messageCount ≤ st'.messageCount := by
  cases h with
  | stepSetUsername conn username =>
      obtain ⟨h1, h2⟩ := setUsername_store st conn username
      exact ⟨StoreInv_congr _ _ h1 h2 hinv, Nat.le_of_eq h2.symm⟩
  | stepDisconnect conn =>
      obtain ⟨h1, h2⟩ := disconnect_store st conn
      exact ⟨StoreInv_congr _ _ h1 h2 hinv, Nat.le_of_eq h2.symm⟩
  | stepChat conn msg now =>
      unfold chatMessage
      cases conn.currentUsername with
      | none => exact ⟨hinv, Nat.le_refl _⟩
      | some u =>
          dsimp only
          by_cases hu : u = ""
          · rw [if_pos hu]
            exact ⟨hinv, Nat.le_refl _⟩
          · rw [if_neg hu]
            exact ⟨StoreInv_append st hinv _ rfl, Nat.le_succ _⟩
  | stepDelete conn messageId =>
      unfold deleteMessage
      cases hf : findMsg st messageId with
      | none => exact ⟨hinv, Nat.le_refl _⟩
      | some m =>
          dsimp only
          split
          · obtain ⟨hp, hb⟩ := hinv
            have hsub : ((st.messagesHistory.eraseP (fun m2 => m2.id == messageId)).map
                Message.id).Sublist (st.messagesHistory.map Message.id) :=
              (List.eraseP_sublist st.messagesHistory).map Message.id
            exact ⟨⟨hp.sublist hsub, fun i hi => hb i (hsub.subset hi)⟩, Nat.le_refl _⟩
          · exact ⟨hinv, Nat.le_refl _⟩
  | stepEdit conn messageId newText =>
      unfold editMessage
      cases hf : findMsg st messageId with
      | none => exact ⟨hinv, Nat.le_refl _⟩
      | some m =>
          dsimp only
          split
          · obtain ⟨hp, hb⟩ := hinv
            refine ⟨⟨?_, ?_⟩, Nat.le_refl _⟩
            · show ((editBody st.messagesHistory messageId newText).map
                  Message.id).Pairwise (· < ·)
              rw [editBody_map_id]
              exact hp
            · show ∀ i ∈ (editBody st.messagesHistory messageId newText).map Message.id,
                  i < st.messageCount
              rw [editBody_map_id]
              exact hb
          · exact ⟨hinv, Nat.le_refl _⟩
  | stepMarkSeen conn messageId =>
      unfold markSeen
      cases hf : findMsg st messageId with
      | none => exact ⟨hinv, Nat.le_refl _⟩
      | some m =>
          dsimp only
          split
          · obtain ⟨hp, hb⟩ := hinv
            refine ⟨⟨?_, ?_⟩, Nat.le_refl _⟩
            · show ((setSeen st.messagesHistory messageId).map Message.id).Pairwise (· < ·)
              rw [setSeen_map_id]
              exact hp
            · show ∀ i ∈ (setSeen st.messagesHistory messageId).map Message.id,
                  i < st.messageCount
              rw [setSeen_map_id]
              exact hb
          · exact ⟨hinv, Nat.le_refl _⟩
  | stepTyping username => exact ⟨hinv, Nat.le_refl _⟩
  | stepStopTyping username => exact ⟨hinv, Nat.le_refl _⟩
  | stepUploadStart conn data stamp =>
      rw [imageUploadStart_state]
      exact ⟨hinv, Nat.le_refl _⟩
  | stepUploadComplete u pending now err =>
      unfold imageUploadComplete
      cases err with
      | true =>
          rw [if_pos rfl]
          exact ⟨hinv, Nat.le_refl _⟩
      | false =>
          rw [if_neg Bool.false_ne_true]
          exact ⟨StoreInv_append st hinv _ rfl, Nat.le_succ _⟩

/-- Claim C4: in every reachable server state the ids along the message log
are strictly increasing in list (creation) order — so the history snapshot
iterates in creation order, with gaps exactly where messages were deleted —
and every id in the log is strictly below the global counter; the counter
never decreases across any event, and each append (a text message or a
completed image upload) assigns exactly the current counter value as the new
id, so an identifier, once assigned, is never assigned again even after the
message is deleted. -/
theorem C4_message_identifiers (st : ServerState) (h : Reachable st) :
    (st.messagesHistory.map Message.id).Pairwise (· < ·)
  ∧ (∀ i ∈ st.messagesHistory.map Message.id, i < st.messageCount)
  ∧ (∀ st', ServerStep st st' → st.messageCount ≤ st'.messageCount)
  ∧ (∀ conn msg now, (chatMessage st conn msg now).1 = st
      ∨ ((chatMessage st conn msg now).1.messagesHistory.map Message.id
            = st.messagesHistory.map Message.id ++ [st.messageCount]
         ∧ (chatMessage st conn msg now).1.messageCount = st.messageCount + 1))
  ∧ (∀ u pending now,
        (imageUploadComplete st u pending now false).1.messagesHistory.map Message.id
          = st.messagesHistory.map Message.id ++ [st.messageCount]) := by
  have hinv : StoreInv st := by
    induction h with
    | refl => exact ⟨by simp [initialState], by simp [initialState]⟩
    | tail hsteps hstep ih => exact (ServerStep_preserves _ _ hstep ih).1
  refine ⟨hinv.1, hinv.2, ?_, ?_, ?_⟩
  · intro st' hs
    exact (ServerStep_preserves _ _ hs hinv).2
  · intro conn msg now
    unfold chatMessage
    cases conn.currentUsername with
    | none => exact Or.inl rfl
    | some u =>
        dsimp only
        by_cases hu : u = ""
        · rw [if_pos hu]
          exact Or.inl rfl
        · rw [if_neg hu]
          exact Or.inr ⟨by simp, rfl⟩
  · intro u pending now
    unfold imageUploadComplete
    simp [imageMessage]

/-- Witness for C4: after binding `alice` and sending one text message, the
reachable state satisfies the invariant — the lone id `0` is strictly sorted
and below the counter `1`. -/
theorem C4_message_identifiers_witness :
    (((chatMessage (setUsername initialState { socketId := "A", currentUsername := none }
          "alice").1 { socketId := "A", currentUsername := some "alice" }
          { text := "hi", replyToId := none, replyToText := none }
          "10:00 AM").1.messagesHistory.map Message.id).Pairwise (· < ·))
  ∧ (∀ i ∈ (chatMessage (setUsername initialState { socketId := "A", currentUsername := none }
          "alice").1 { socketId := "A", currentUsername := some "alice" }
          { text := "hi", replyToId := none, replyToText := none }
          "10:00 AM").1.messagesHistory.map Message.id,
        i < (chatMessage (setUsername initialState { socketId := "A", currentUsername := none }
          "alice").1 { socketId := "A", currentUsername := some "alice" }
          { text := "hi", replyToId := none, replyToText := none }
          "10:00 AM").1.messageCount) := by
  have h1 : Reachable (setUsername initialState { socketId := "A", currentUsername := none }
      "alice").1 :=
    Relation.ReflTransGen.single
      (ServerStep.stepSetUsername initialState { socketId := "A", currentUsername := none }
        "alice")
  have h2 : Reachable (chatMessage (setUsername initialState
      { socketId := "A", currentUsername := none } "alice").1
      { socketId := "A", currentUsername := some "alice" }
      { text := "hi", replyToId := none, replyToText := none } "10:00 AM").1 :=
    h1.tail (ServerStep.stepChat _ { socketId := "A", currentUsername := some "alice" }
      { text := "hi", replyToId := none, replyToText := none } "10:00 AM")
  exact ⟨(C4_message_identifiers _ h2).1, (C4_message_identifiers _ h2).2.1⟩
